import Mathlib

/-!
Verification of the velocity-resolved IK controller core
(`notebook/linalg.py` and `notebook/controller.py`).

The numerical collaborators that the source treats as black boxes
(`numpy.linalg.svd`, `numpy.linalg.pinv`, `tf.rotation_from_matrix`, the
forward-kinematics service `robot.fk`) are modelled as explicit inputs:
an SVD is passed as its factor triple, the axis-angle extraction and the
FK service are function parameters.  All scalar arithmetic is over an
arbitrary linear ordered field, so every theorem instantiates at `ℝ`;
concrete evaluations below use `ℚ`.
-/

namespace Lecture

/-- The factor triple returned by `numpy.linalg.svd(J, full_matrices=False)`
for an m×n matrix: `U` is m×k, `S` the list of k singular values, `Vt` is
k×n, where k = min(m, n). -/
structure SVD (α : Type) (m n k : ℕ) where
  U : Matrix (Fin m) (Fin k) α
  S : Fin k → α
  Vt : Matrix (Fin k) (Fin n) α

/-- The defining properties of the (thin) singular value decomposition of
`J`: the factors reconstruct `J`, the singular values are nonnegative and
listed in the order returned by the decomposition (descending), and `U`
and `Vt` have orthonormal columns resp. rows. -/
def SVD.IsSVDOf {α : Type} [LinearOrderedField α] {m n k : ℕ}
    (fac : SVD α m n k) (J : Matrix (Fin m) (Fin n) α) : Prop :=
  fac.U * Matrix.diagonal fac.S * fac.Vt = J ∧
  (∀ i, 0 ≤ fac.S i) ∧
  (∀ i j : Fin k, i ≤ j → fac.S j ≤ fac.S i) ∧
  fac.U.transpose * fac.U = 1 ∧
  fac.Vt * fac.Vt.transpose = 1

/-- The damped (Tikhonov) inversion of a single singular value, the
expression `s/(s**2 + lam**2)` from the `damped` and `smooth` branches of
`pinv_svd` (`linalg.py`). -/
def dampedSinv {α : Type} [LinearOrderedField α] (s lam : α) : α :=
  s / (s ^ 2 + lam ^ 2)

/-- The `if/elif` chain of `pinv_svd` (`linalg.py` lines 11-27) building
the elementwise inverted singular values `Sinv` from the variant selector;
an unknown selector raises `ValueError` (modelled as `Except.error`). -/
def sinvOf {α : Type} [LinearOrderedField α] {k : ℕ}
    (variant : String) (eps lam lam_min : α) (S : Fin k → α) :
    Except String (Fin k → α) :=
  if variant = "plain" then
    Except.ok (fun i => if S i > 0 then 1 / S i else 0)
  else if variant = "clipped" then
    Except.ok (fun i => if S i < eps then 0 else 1 / S i)
  else if variant = "damped" then
    Except.ok (fun i => dampedSinv (S i) lam)
  else if variant = "smooth" then
    Except.ok (fun i => if S i > eps then 1 / S i else dampedSinv (S i) lam_min)
  else
    Except.error ("Unknown variant " ++ variant)

/-- `pinv_svd` (`linalg.py`) after the call to `numpy.linalg.svd`: builds
`Sinv` by the variant dispatch and returns `Vt.T @ diag(Sinv) @ U.T`.
The source's parameter defaults are eps = 1e-4, lam = 0.03,
lam_min = 0.01; they are passed explicitly here. -/
def pinv_svd {α : Type} [LinearOrderedField α] {m n k : ℕ}
    (fac : SVD α m n k) (variant : String) (eps lam lam_min : α) :
    Except String (Matrix (Fin n) (Fin m) α) :=
  match sinvOf variant eps lam lam_min fac.S with
  | Except.ok Sinv =>
      Except.ok (fac.Vt.transpose * Matrix.diagonal Sinv * fac.U.transpose)
  | Except.error e => Except.error e

/-- The full body of `pinv_svd` with the SVD collaborator explicit.  The
source's first statement is `U, S, Vt = np.linalg.svd(J, full_matrices=False)`,
executed unconditionally before the variant dispatch, so a failure of the
SVD routine propagates even when the variant is unknown.  The boolean
component records that the SVD collaborator was invoked during the call. -/
def pinv_svd_of {α : Type} [LinearOrderedField α] {m n k : ℕ}
    (svd : Matrix (Fin m) (Fin n) α → Except String (SVD α m n k))
    (J : Matrix (Fin m) (Fin n) α) (variant : String) (eps lam lam_min : α) :
    Bool × Except String (Matrix (Fin n) (Fin m) α) :=
  match svd J with
  | Except.error e => (true, Except.error e)
  | Except.ok fac => (true, pinv_svd fac variant eps lam lam_min)

theorem pinv_svd_plain_eq {α : Type} [LinearOrderedField α] {m n k : ℕ}
    (fac : SVD α m n k) (eps lam lam_min : α) :
    pinv_svd fac "plain" eps lam lam_min =
      Except.ok (fac.Vt.transpose *
        Matrix.diagonal (fun i => if fac.S i > 0 then 1 / fac.S i else 0) *
        fac.U.transpose) := rfl

theorem pinv_svd_clipped_eq {α : Type} [LinearOrderedField α] {m n k : ℕ}
    (fac : SVD α m n k) (eps lam lam_min : α) :
    pinv_svd fac "clipped" eps lam lam_min =
      Except.ok (fac.Vt.transpose *
        Matrix.diagonal (fun i => if fac.S i < eps then 0 else 1 / fac.S i) *
        fac.U.transpose) := rfl

theorem pinv_svd_damped_eq {α : Type} [LinearOrderedField α] {m n k : ℕ}
    (fac : SVD α m n k) (eps lam lam_min : α) :
    pinv_svd fac "damped" eps lam lam_min =
      Except.ok (fac.Vt.transpose *
        Matrix.diagonal (fun i => dampedSinv (fac.S i) lam) *
        fac.U.transpose) := rfl

theorem pinv_svd_smooth_eq {α : Type} [LinearOrderedField α] {m n k : ℕ}
    (fac : SVD α m n k) (eps lam lam_min : α) :
    pinv_svd fac "smooth" eps lam lam_min =
      Except.ok (fac.Vt.transpose *
        Matrix.diagonal
          (fun i => if fac.S i > eps then 1 / fac.S i else dampedSinv (fac.S i) lam_min) *
        fac.U.transpose) := rfl

theorem pinv_svd_unknown_eq {α : Type} [LinearOrderedField α] {m n k : ℕ}
    (fac : SVD α m n k) (variant : String) (eps lam lam_min : α)
    (h1 : variant ≠ "plain") (h2 : variant ≠ "clipped")
    (h3 : variant ≠ "damped") (h4 : variant ≠ "smooth") :
    pinv_svd fac variant eps lam lam_min =
      Except.error ("Unknown variant " ++ variant) := by
  simp [pinv_svd, sinvOf, h1, h2, h3, h4]

theorem pinv_svd_of_ok {α : Type} [LinearOrderedField α] {m n k : ℕ}
    (svd : Matrix (Fin m) (Fin n) α → Except String (SVD α m n k))
    (J : Matrix (Fin m) (Fin n) α) (fac : SVD α m n k)
    (hs : svd J = Except.ok fac) (variant : String) (eps lam lam_min : α) :
    pinv_svd_of svd J variant eps lam lam_min =
      (true, pinv_svd fac variant eps lam lam_min) := by
  simp [pinv_svd_of, hs]

/-- The per-singular-value inversion rule exactly as written in the
specification's policy table (spec §4.2): Plain, Clipped, Damped, and
(final branch) Smooth.  Stated from the spec's words, to be compared with
the source-derived `pinv_svd`. -/
def sigmaInvSpec {α : Type} [LinearOrderedField α]
    (variant : String) (eps lam lam_min : α) (s : α) : α :=
  if variant = "plain" then (if 0 < s then 1 / s else 0)
  else if variant = "clipped" then (if s < eps then 0 else 1 / s)
  else if variant = "damped" then s / (s ^ 2 + lam ^ 2)
  else if eps < s then 1 / s else s / (s ^ 2 + lam_min ^ 2)

/-- Concrete 1×1 identity matrix used as a trivial SVD fixture. -/
def J1 : Matrix (Fin 1) (Fin 1) ℚ := 1

/-- Trivial SVD of `J1`: U = I, S = (1), Vt = I. -/
def fac1 : SVD ℚ 1 1 1 := ⟨1, fun _ => 1, 1⟩

theorem fac1_is_svd : fac1.IsSVDOf J1 := by
  refine ⟨?_, ?_, ?_, ?_, ?_⟩ <;>
    simp [fac1, J1, SVD.IsSVDOf, Matrix.diagonal_one]

/-- C1: for every matrix J with SVD factors (U, S, Vt) and every known
policy selector, `pinv_svd` returns `Vt.T · diag(Σ⁺) · U.T` where `Σ⁺`
inverts each singular value exactly by the specification's table rule
(Plain: 1/σ if σ > 0 else 0; Clipped: 0 if σ < ε else 1/σ; Damped:
σ/(σ² + λ²); Smooth: 1/σ if σ > ε else σ/(σ² + λ_min²)). -/
theorem pinv_svd_policy_table {α : Type} [LinearOrderedField α] {m n k : ℕ}
    (J : Matrix (Fin m) (Fin n) α) (fac : SVD α m n k) (hfac : fac.IsSVDOf J)
    (variant : String)
    (hv : variant = "plain" ∨ variant = "clipped" ∨ variant = "damped" ∨
      variant = "smooth")
    (eps lam lam_min : α) :
    pinv_svd fac variant eps lam lam_min =
      Except.ok (fac.Vt.transpose *
        Matrix.diagonal (fun i => sigmaInvSpec variant eps lam lam_min (fac.S i)) *
        fac.U.transpose) := by
  rcases hv with h | h | h | h <;> subst h <;>
    simp [pinv_svd, sinvOf, sigmaInvSpec, dampedSinv]

/-- Witness for C1 at the concrete input J = (1), plain policy. -/
theorem pinv_svd_policy_table_witness :
    fac1.IsSVDOf J1 ∧
    (("plain" : String) = "plain" ∨ ("plain" : String) = "clipped" ∨
      ("plain" : String) = "damped" ∨ ("plain" : String) = "smooth") ∧
    pinv_svd fac1 "plain" (1/10000) (3/100) (1/100) =
      Except.ok (fac1.Vt.transpose *
        Matrix.diagonal
          (fun i => sigmaInvSpec "plain" (1/10000) (3/100) (1/100) (fac1.S i)) *
        fac1.U.transpose) :=
  ⟨fac1_is_svd, Or.inl rfl,
    pinv_svd_policy_table J1 fac1 fac1_is_svd "plain" (Or.inl rfl)
      (1/10000) (3/100) (1/100)⟩

/-- C5: with every singular value strictly above ε (and ε > 0), the Smooth
policy produces the same matrix as the Plain policy (with any parameters);
with every singular value at most ε, it produces the same matrix as the
Damped policy run with λ = λ_min. -/
theorem pinv_svd_smooth_blend {α : Type} [LinearOrderedField α] {m n k : ℕ}
    (J : Matrix (Fin m) (Fin n) α) (fac : SVD α m n k) (hfac : fac.IsSVDOf J)
    (eps lam lam_min e₂ l₂ lm₂ : α) (heps : 0 < eps) :
    ((∀ i, eps < fac.S i) →
      pinv_svd fac "smooth" eps lam lam_min = pinv_svd fac "plain" e₂ l₂ lm₂) ∧
    ((∀ i, fac.S i ≤ eps) →
      pinv_svd fac "smooth" eps lam lam_min =
        pinv_svd fac "damped" e₂ lam_min lm₂) := by
  constructor
  · intro hall
    rw [pinv_svd_smooth_eq, pinv_svd_plain_eq]
    have hfe : (fun i => if fac.S i > eps then 1 / fac.S i else dampedSinv (fac.S i) lam_min)
        = (fun i : Fin k => if fac.S i > 0 then 1 / fac.S i else 0) := by
      funext i
      have h1 : eps < fac.S i := hall i
      have h2 : (0 : α) < fac.S i := lt_trans heps h1
      rw [if_pos h1, if_pos h2]
    rw [hfe]
  · intro hall
    rw [pinv_svd_smooth_eq, pinv_svd_damped_eq]
    have hfe : (fun i => if fac.S i > eps then 1 / fac.S i else dampedSinv (fac.S i) lam_min)
        = (fun i : Fin k => dampedSinv (fac.S i) lam_min) := by
      funext i
      rw [if_neg (not_lt.mpr (hall i))]
    rw [hfe]

/-- Witness for C5 at the concrete fixture J = (1), ε = 1/2, where the
single singular value 1 exceeds ε, so Smooth agrees with Plain. -/
theorem pinv_svd_smooth_blend_witness :
    fac1.IsSVDOf J1 ∧ (0 : ℚ) < 1/2 ∧ (∀ i, (1/2 : ℚ) < fac1.S i) ∧
    pinv_svd fac1 "smooth" (1/2) (3/100) (1/100) =
      pinv_svd fac1 "plain" (1/2) (3/100) (1/100) :=
  ⟨fac1_is_svd, by norm_num, fun i => by norm_num [fac1],
    (pinv_svd_smooth_blend J1 fac1 fac1_is_svd (1/2) (3/100) (1/100)
        (1/2) (3/100) (1/100) (by norm_num)).1
      (fun i => by norm_num [fac1])⟩

/-- An SVD collaborator that fails (as `numpy.linalg.svd` may, e.g. with
`LinAlgError` on non-convergence). -/
def badSvd : Matrix (Fin 1) (Fin 1) ℚ → Except String (SVD ℚ 1 1 1) :=
  fun _ => Except.error "LinAlgError"

/-- An SVD collaborator that succeeds on the fixture `J1`. -/
def goodSvd : Matrix (Fin 1) (Fin 1) ℚ → Except String (SVD ℚ 1 1 1) :=
  fun _ => Except.ok fac1

/-- C3 counterexample: the unknown-variant configuration error is not
raised before the SVD of J is computed.  The source's first statement is
the `numpy.linalg.svd` call, so with the variant selector unknown the SVD
collaborator is still invoked (first component `true`), and when that call
fails its failure — not the configuration error — is what the caller
observes. -/
theorem pinv_svd_unknown_after_svd_cex :
    (pinv_svd_of badSvd J1 "bogus" (1/10000) (3/100) (1/100)).1 = true ∧
    (pinv_svd_of badSvd J1 "bogus" (1/10000) (3/100) (1/100)).2 =
      Except.error "LinAlgError" ∧
    (pinv_svd_of badSvd J1 "bogus" (1/10000) (3/100) (1/100)).2 ≠
      Except.error ("Unknown variant " ++ "bogus") := by
  refine ⟨rfl, rfl, ?_⟩
  simp [pinv_svd_of, badSvd]

/-- C3 amended: when the variant selector is unknown, `pinv_svd` raises
the configuration error (`ValueError`, modelled as `Except.error`), but
only after the SVD of J has been computed — the SVD collaborator is
invoked unconditionally first; for the four known variants no error is
ever raised. -/
theorem pinv_svd_variant_dispatch {α : Type} [LinearOrderedField α] {m n k : ℕ}
    (svd : Matrix (Fin m) (Fin n) α → Except String (SVD α m n k))
    (J : Matrix (Fin m) (Fin n) α) (fac : SVD α m n k)
    (hs : svd J = Except.ok fac) (variant : String) (eps lam lam_min : α) :
    (variant ∉ (["plain", "clipped", "damped", "smooth"] : List String) →
      (pinv_svd_of svd J variant eps lam lam_min).1 = true ∧
      (pinv_svd_of svd J variant eps lam lam_min).2 =
        Except.error ("Unknown variant " ++ variant)) ∧
    (variant ∈ (["plain", "clipped", "damped", "smooth"] : List String) →
      ∃ M, (pinv_svd_of svd J variant eps lam lam_min).1 = true ∧
        (pinv_svd_of svd J variant eps lam lam_min).2 = Except.ok M) := by
  rw [pinv_svd_of_ok svd J fac hs]
  constructor
  · intro hv
    simp only [List.mem_cons, List.not_mem_nil, or_false, not_or] at hv
    obtain ⟨h1, h2, h3, h4⟩ := hv
    exact ⟨rfl, pinv_svd_unknown_eq fac variant eps lam lam_min h1 h2 h3 h4⟩
  · intro hv
    simp only [List.mem_cons, List.not_mem_nil, or_false] at hv
    rcases hv with h | h | h | h <;> subst h
    · exact ⟨_, rfl, pinv_svd_plain_eq fac eps lam lam_min⟩
    · exact ⟨_, rfl, pinv_svd_clipped_eq fac eps lam lam_min⟩
    · exact ⟨_, rfl, pinv_svd_damped_eq fac eps lam lam_min⟩
    · exact ⟨_, rfl, pinv_svd_smooth_eq fac eps lam lam_min⟩

/-- Witness for the amended C3 at the fixture: a succeeding SVD
collaborator and the known variant "plain" yield a successful result. -/
theorem pinv_svd_variant_dispatch_witness :
    goodSvd J1 = Except.ok fac1 ∧
    ("plain" : String) ∈ (["plain", "clipped", "damped", "smooth"] : List String) ∧
    ∃ M, (pinv_svd_of goodSvd J1 "plain" (1/10000) (3/100) (1/100)).1 = true ∧
      (pinv_svd_of goodSvd J1 "plain" (1/10000) (3/100) (1/100)).2 = Except.ok M :=
  ⟨rfl, List.mem_cons_self _ _,
    (pinv_svd_variant_dispatch goodSvd J1 fac1 rfl "plain"
        (1/10000) (3/100) (1/100)).2 (List.mem_cons_self _ _)⟩

/-- C10: for λ ≠ 0 the denominator σ² + λ² of the Damped inversion rule is
strictly positive — the division is a genuine division, recovering σ on
multiplying back — so the Damped policy never divides by zero; at
λ = 0, σ = 0 the denominator vanishes (0² + 0² = 0), so that totality is
lost there. -/
theorem dampedSinv_denominator_pos {α : Type} [LinearOrderedField α]
    (s lam : α) (hl : lam ≠ 0) (hs : 0 ≤ s) :
    (0 < s ^ 2 + lam ^ 2 ∧ dampedSinv s lam * (s ^ 2 + lam ^ 2) = s) ∧
    (0 : α) ^ 2 + (0 : α) ^ 2 = 0 := by
  have hl2 : 0 < lam ^ 2 := by positivity
  have hpos : 0 < s ^ 2 + lam ^ 2 := by positivity
  refine ⟨⟨hpos, ?_⟩, by ring⟩
  rw [dampedSinv, div_mul_cancel₀ _ (ne_of_gt hpos)]

/-- Witness for C10 at σ = 0, λ = 1. -/
theorem dampedSinv_denominator_pos_witness :
    (1 : ℚ) ≠ 0 ∧ (0 : ℚ) ≤ 0 ∧
    ((0 < (0 : ℚ) ^ 2 + (1 : ℚ) ^ 2 ∧
      dampedSinv (0 : ℚ) 1 * ((0 : ℚ) ^ 2 + (1 : ℚ) ^ 2) = 0) ∧
      (0 : ℚ) ^ 2 + (0 : ℚ) ^ 2 = 0) :=
  ⟨one_ne_zero, le_refl 0, dampedSinv_denominator_pos 0 1 one_ne_zero (le_refl 0)⟩

/-- A rigid pose: 3×3 rotation part `R` (the slice `T[0:3, 0:3]`) and
translation 3-vector `t` (the slice `T[0:3, 3]`) of the homogeneous
transform. -/
structure Pose (α : Type) where
  R : Matrix (Fin 3) (Fin 3) α
  t : Fin 3 → α

/-- A valid pose per the spec's data model: orthonormal rotation part with
determinant +1. -/
def Pose.IsValid {α : Type} [LinearOrderedField α] (T : Pose α) : Prop :=
  T.R.transpose * T.R = 1 ∧ T.R.det = 1

/-- `Controller.position_error` (`controller.py`): the world-frame
translational error `T_tgt[0:3, 3] - T_cur[0:3, 3]`. -/
def position_error {α : Type} [LinearOrderedField α]
    (Ttgt Tcur : Pose α) : Fin 3 → α :=
  fun i => Ttgt.t i - Tcur.t i

/-- `Controller.orientation_error` (`controller.py` lines 126-140):
forms `R_err = R_curᵀ · R_tgt`, hands it to the external axis-angle
extraction `tf.rotation_from_matrix` (the collaborator `rfm`, returning
the pair (angle, axis)), and returns `angle * axis` — with no tolerance
check on the angle. -/
def orientation_error {α : Type} [LinearOrderedField α]
    (rfm : Matrix (Fin 3) (Fin 3) α → α × (Fin 3 → α))
    (Ttgt Tcur : Pose α) : Fin 3 → α :=
  let Rerr := Tcur.R.transpose * Ttgt.R
  let p := rfm Rerr
  fun i => p.1 * p.2 i

/-- `alt_orientation_error` (`controller.py` lines 14-28): same as
`orientation_error`, but after the `tf.rotation_from_matrix` call it tests
`numpy.isclose(angle, 0.0)` — i.e. |angle| ≤ atol, with numpy's default
atol = 1e-8 — and returns the zero vector in that case. -/
def alt_orientation_error {α : Type} [LinearOrderedField α]
    (rfm : Matrix (Fin 3) (Fin 3) α → α × (Fin 3 → α))
    (atol : α) (Ttgt Tcur : Pose α) : Fin 3 → α :=
  let Rerr := Tcur.R.transpose * Ttgt.R
  let p := rfm Rerr
  if |p.1| ≤ atol then fun _ => 0 else fun i => p.1 * p.2 i

/-- C9: the translational error is antisymmetric in its two poses. -/
theorem position_error_antisymm {α : Type} [LinearOrderedField α]
    (T₁ T₂ : Pose α) :
    position_error T₁ T₂ = -(position_error T₂ T₁) := by
  funext i
  simp [position_error]

/-- C6: for a valid pose T, both errors of T against itself vanish — the
relative rotation is `RᵀR = I`, and the axis-angle collaborator assigns
angle 0 to the identity rotation, so `angle * axis = 0`. -/
theorem pose_error_self_zero {α : Type} [LinearOrderedField α]
    (rfm : Matrix (Fin 3) (Fin 3) α → α × (Fin 3 → α))
    (T : Pose α) (hT : T.IsValid) (hrfm : (rfm 1).1 = 0) :
    position_error T T = (fun _ => 0) ∧
    orientation_error rfm T T = (fun _ => 0) := by
  constructor
  · funext i
    simp [position_error]
  · funext i
    simp only [orientation_error, hT.1, hrfm, zero_mul]

/-- The identity pose, a concrete valid pose. -/
def poseId : Pose ℚ := ⟨1, fun _ => 0⟩

/-- A model of `tf.rotation_from_matrix` that reports angle 0 on the
identity rotation (the identity rotates by angle 0). -/
def rfmId : Matrix (Fin 3) (Fin 3) ℚ → ℚ × (Fin 3 → ℚ) :=
  fun _ => (0, ![1, 0, 0])

/-- Witness for C6 at the identity pose. -/
theorem pose_error_self_zero_witness :
    poseId.IsValid ∧ (rfmId 1).1 = 0 ∧
    (position_error poseId poseId = (fun _ => 0) ∧
      orientation_error rfmId poseId poseId = (fun _ => 0)) :=
  ⟨⟨by simp [poseId], by simp [poseId]⟩, rfl,
    pose_error_self_zero rfmId poseId ⟨by simp [poseId], by simp [poseId]⟩ rfl⟩

/-- C4 amended: in `alt_orientation_error` the zero case is decided by the
tolerance check |angle| ≤ atol on the angle already extracted by
`tf.rotation_from_matrix`: when it fires the function returns the zero
vector, and the extracted axis is ignored — any collaborator agreeing on
the angle (with an arbitrary axis) gives the same result. -/
theorem alt_orientation_error_tolerance {α : Type} [LinearOrderedField α]
    (rfm rfm₂ : Matrix (Fin 3) (Fin 3) α → α × (Fin 3 → α)) (atol : α)
    (Ttgt Tcur : Pose α)
    (h : |(rfm (Tcur.R.transpose * Ttgt.R)).1| ≤ atol)
    (hangle : (rfm₂ (Tcur.R.transpose * Ttgt.R)).1 =
      (rfm (Tcur.R.transpose * Ttgt.R)).1) :
    alt_orientation_error rfm atol Ttgt Tcur = (fun _ => 0) ∧
    alt_orientation_error rfm₂ atol Ttgt Tcur =
      alt_orientation_error rfm atol Ttgt Tcur := by
  have h2 : |(rfm₂ (Tcur.R.transpose * Ttgt.R)).1| ≤ atol := by
    rw [hangle]; exact h
  constructor
  · simp only [alt_orientation_error, if_pos h]
  · simp only [alt_orientation_error, if_pos h, if_pos h2]

/-- A second axis-angle collaborator differing from `rfmId` only in the
reported axis. -/
def rfmId₂ : Matrix (Fin 3) (Fin 3) ℚ → ℚ × (Fin 3 → ℚ) :=
  fun _ => (0, ![0, 1, 0])

/-- Witness for the amended C4 at the identity poses with atol = 0. -/
theorem alt_orientation_error_tolerance_witness :
    |(rfmId (poseId.R.transpose * poseId.R)).1| ≤ (0 : ℚ) ∧
    (rfmId₂ (poseId.R.transpose * poseId.R)).1 =
      (rfmId (poseId.R.transpose * poseId.R)).1 ∧
    (alt_orientation_error rfmId 0 poseId poseId = (fun _ => 0) ∧
      alt_orientation_error rfmId₂ 0 poseId poseId =
        alt_orientation_error rfmId 0 poseId poseId) :=
  ⟨by simp [rfmId], rfl,
    alt_orientation_error_tolerance rfmId rfmId₂ 0 poseId poseId
      (by simp [rfmId]) rfl⟩

/-- A rotation about the z-axis by the small angle θ = 2·arctan(1/(2·10⁸))
≈ 1e-8 - ε, written with the exact rational entries
cos θ = (q² - 1)/(q² + 1), sin θ = 2q/(q² + 1) for q = 2·10⁸. -/
def RzSmall : Matrix (Fin 3) (Fin 3) ℚ :=
  ![![(40000000000000000 - 1) / (40000000000000000 + 1),
      -(400000000 : ℚ) / (40000000000000000 + 1), 0],
    ![(400000000 : ℚ) / (40000000000000000 + 1),
      (40000000000000000 - 1) / (40000000000000000 + 1), 0],
    ![0, 0, 1]]

/-- Target pose for the C4 counterexample: rotated by the small angle. -/
def TtgtSmall : Pose ℚ := ⟨RzSmall, fun _ => 0⟩

/-- Current pose for the C4 counterexample: the identity. -/
def TcurSmall : Pose ℚ := ⟨1, fun _ => 0⟩

/-- Model of `tf.rotation_from_matrix` on the small z-rotation: it reports
the (float-rounded) angle 1e-8 about the axis (0, 0, 1). -/
def rfmSmall : Matrix (Fin 3) (Fin 3) ℚ → ℚ × (Fin 3 → ℚ) :=
  fun _ => (1 / 100000000, ![0, 0, 1])

/-- C4 counterexample: at a valid pose pair whose relative rotation angle
is numerically zero — |angle| ≤ 1e-8, numpy's `isclose` tolerance —
`Controller.orientation_error` does not return the zero vector: it has no
tolerance check and returns `angle * axis` as is. -/
theorem orientation_error_no_tolerance_cex :
    TtgtSmall.IsValid ∧
    |(rfmSmall (TcurSmall.R.transpose * TtgtSmall.R)).1| ≤ 1 / 100000000 ∧
    orientation_error rfmSmall TtgtSmall TcurSmall ≠ (fun _ => 0) := by
  refine ⟨⟨?_, ?_⟩, ?_, ?_⟩
  · ext i j
    fin_cases i <;> fin_cases j <;>
      simp [TtgtSmall, RzSmall, Matrix.mul_apply, Fin.sum_univ_three,
        Matrix.one_apply] <;> norm_num
  · simp only [TtgtSmall]
    rw [Matrix.det_fin_three]
    simp [RzSmall]
    norm_num
  · rw [rfmSmall]
    rw [abs_of_nonneg (by norm_num)]
  · intro hzero
    have h2 : orientation_error rfmSmall TtgtSmall TcurSmall ⟨2, by omega⟩ = 0 := by
      rw [hzero]
    simp [orientation_error, rfmSmall] at h2

/-- The state of `Controller` relevant to `actuate`: the joint
configuration `joint_msg.position`, the designated `target_link`, and the
cached pose `T` and Jacobian `J`. -/
structure CtrlState (α : Type) (nj : ℕ) where
  position : Fin nj → α
  target_link : String
  T : Pose α
  J : Matrix (Fin 6) (Fin nj) α

/-- `Controller.actuate` (`controller.py` lines 109-114): adds `q_delta`
elementwise to `joint_msg.position` (no clamping of any kind), publishes
the new joint state to the external transport (a side effect outside this
model), and recomputes `self.T, self.J` through the external FK
collaborator `fk` at the target link and the new configuration — all
within the same call. -/
def actuate {α : Type} [LinearOrderedField α] {nj : ℕ}
    (fk : String → (Fin nj → α) → Pose α × Matrix (Fin 6) (Fin nj) α)
    (s : CtrlState α nj) (q_delta : Fin nj → α) : CtrlState α nj :=
  let position := fun i => s.position i + q_delta i
  let TJ := fk s.target_link position
  { position := position, target_link := s.target_link, T := TJ.1, J := TJ.2 }

/-- C7: `actuate` sets the joint configuration to the elementwise sum of
the previous configuration and the delta — no joint-limit clamping — and
the returned state's cached (Pose, Jacobian) pair is exactly the result of
the external `fk` collaborator applied to the target link and the new
configuration, computed synchronously within the same call. -/
theorem actuate_updates {α : Type} [LinearOrderedField α] {nj : ℕ}
    (fk : String → (Fin nj → α) → Pose α × Matrix (Fin 6) (Fin nj) α)
    (s : CtrlState α nj) (q_delta : Fin nj → α) :
    (actuate fk s q_delta).position = (fun i => s.position i + q_delta i) ∧
    (actuate fk s q_delta).T =
      (fk s.target_link (fun i => s.position i + q_delta i)).1 ∧
    (actuate fk s q_delta).J =
      (fk s.target_link (fun i => s.position i + q_delta i)).2 ∧
    (actuate fk s q_delta).target_link = s.target_link :=
  ⟨rfl, rfl, rfl, rfl⟩

/-- `numpy.linalg.pinv(J, rcond)`, modelled from the numpy documentation
and reference implementation: given the SVD of J, singular values at most
`rcond * (largest singular value)` are set to zero and the rest inverted,
then `V · diag(Sinv) · Uᵗ` is returned. -/
def np_pinv {α : Type} [LinearOrderedField α] {m n k : ℕ}
    (fac : SVD α m n k) (rcond : α) : Matrix (Fin n) (Fin m) α :=
  let smax := (List.ofFn fac.S).foldr max 0
  let Sinv := fun i => if fac.S i ≤ rcond * smax then 0 else 1 / fac.S i
  fac.Vt.transpose * Matrix.diagonal Sinv * fac.U.transpose

/-- `Controller.solve` (`controller.py` lines 117-119):
`numpy.linalg.pinv(J, 0.01).dot(error)` — the pseudo-inverse with the
fixed cutoff 0.01, independent of any configured policy. -/
def solve {α : Type} [LinearOrderedField α] {m n k : ℕ}
    (svd : Matrix (Fin m) (Fin n) α → SVD α m n k)
    (J : Matrix (Fin m) (Fin n) α) (error : Fin m → α) : Fin n → α :=
  Matrix.mulVec (np_pinv (svd J) (1 / 100)) error

/-- A 6×2 Jacobian with singular values 1 and 1/200: diag(1, 1/200) padded
with four zero rows. -/
def J2 : Matrix (Fin 6) (Fin 2) ℚ :=
  fun i j => if (i : ℕ) = 0 ∧ (j : ℕ) = 0 then 1
    else if (i : ℕ) = 1 ∧ (j : ℕ) = 1 then 1/200 else 0

/-- The 6×2 matrix with ones on the leading diagonal positions. -/
def U2 : Matrix (Fin 6) (Fin 2) ℚ :=
  fun i j => if (i : ℕ) = (j : ℕ) then 1 else 0

/-- The (thin) SVD factors of `J2`. -/
def fac2 : SVD ℚ 6 2 2 := ⟨U2, ![1, 1/200], 1⟩

/-- SVD collaborator for the `J2` fixture. -/
def svd2 : Matrix (Fin 6) (Fin 2) ℚ → SVD ℚ 6 2 2 := fun _ => fac2

/-- A task-space error vector with nonzero second component only. -/
def e2 : Fin 6 → ℚ := fun i => if (i : ℕ) = 1 then 1 else 0

/-- The generalized inverse of `J2` produced by the Plain, Clipped and
Smooth policies (all invert both singular values here). -/
def Pmp2 : Matrix (Fin 2) (Fin 6) ℚ :=
  fun i j => if (i : ℕ) = 0 ∧ (j : ℕ) = 0 then 1
    else if (i : ℕ) = 1 ∧ (j : ℕ) = 1 then 200 else 0

/-- The generalized inverse of `J2` produced by the Damped policy with
λ = 0.03. -/
def Pd2 : Matrix (Fin 2) (Fin 6) ℚ :=
  fun i j => if (i : ℕ) = 0 ∧ (j : ℕ) = 0 then 10000/10009
    else if (i : ℕ) = 1 ∧ (j : ℕ) = 1 then 200/37 else 0

theorem fin6_val3 : ((3 : Fin 6) : ℕ) = 3 := rfl

theorem fin6_val4 : ((4 : Fin 6) : ℕ) = 4 := rfl

theorem fin6_val5 : ((5 : Fin 6) : ℕ) = 5 := rfl

theorem fac2_is_svd : fac2.IsSVDOf J2 := by
  refine ⟨?_, ?_, ?_, ?_, ?_⟩
  · ext i j
    fin_cases i <;> fin_cases j <;>
      norm_num [fac2, J2, U2, Matrix.mul_apply, Fin.sum_univ_two,
        Matrix.diagonal, fin6_val3, fin6_val4, fin6_val5]
  · intro i
    fin_cases i <;> norm_num [fac2]
  · intro i j hij
    fin_cases i <;> fin_cases j
    · norm_num [fac2]
    · norm_num [fac2]
    · exact absurd hij (by decide)
    · norm_num [fac2]
  · ext i j
    fin_cases i <;> fin_cases j <;>
      norm_num [fac2, U2, Matrix.mul_apply, Fin.sum_univ_six, Matrix.one_apply,
        fin6_val3, fin6_val4, fin6_val5]
  · ext i j
    fin_cases i <;> fin_cases j <;>
      norm_num [fac2, Matrix.mul_apply, Fin.sum_univ_two, Matrix.one_apply]

theorem solve_J2_eval : solve svd2 J2 e2 = ![0, 0] := by
  have hmax : (List.ofFn fac2.S).foldr max 0 = 1 := by
    norm_num [fac2, List.ofFn_succ, max_def]
  funext i
  fin_cases i <;>
    · simp only [solve, np_pinv, svd2, hmax, Matrix.mulVec, Matrix.dotProduct,
        Matrix.mul_apply, Fin.sum_univ_six, Fin.sum_univ_two, fac2, U2, e2,
        Matrix.transpose_apply, Matrix.diagonal, Matrix.one_apply,
        Matrix.of_apply, Matrix.cons_val_zero, Matrix.cons_val_one,
        Matrix.head_cons, Fin.isValue]
      norm_num [fin6_val3, fin6_val4, fin6_val5]

theorem pinv_svd_J2_plain :
    pinv_svd fac2 "plain" (1/10000) (3/100) (1/100) = Except.ok Pmp2 := by
  rw [pinv_svd_plain_eq]
  congr 1
  ext i j
  fin_cases i <;> fin_cases j <;>
    · simp only [fac2, U2, Pmp2, Matrix.mul_apply, Fin.sum_univ_two,
        Matrix.transpose_apply, Matrix.diagonal, Matrix.one_apply,
        Matrix.of_apply, Matrix.cons_val_zero, Matrix.cons_val_one,
        Matrix.head_cons, Fin.isValue]
      norm_num [fin6_val3, fin6_val4, fin6_val5]

theorem pinv_svd_J2_clipped :
    pinv_svd fac2 "clipped" (1/10000) (3/100) (1/100) = Except.ok Pmp2 := by
  rw [pinv_svd_clipped_eq]
  congr 1
  ext i j
  fin_cases i <;> fin_cases j <;>
    · simp only [fac2, U2, Pmp2, Matrix.mul_apply, Fin.sum_univ_two,
        Matrix.transpose_apply, Matrix.diagonal, Matrix.one_apply,
        Matrix.of_apply, Matrix.cons_val_zero, Matrix.cons_val_one,
        Matrix.head_cons, Fin.isValue]
      norm_num [fin6_val3, fin6_val4, fin6_val5]

theorem pinv_svd_J2_smooth :
    pinv_svd fac2 "smooth" (1/10000) (3/100) (1/100) = Except.ok Pmp2 := by
  rw [pinv_svd_smooth_eq]
  congr 1
  ext i j
  fin_cases i <;> fin_cases j <;>
    · simp only [fac2, U2, Pmp2, dampedSinv, Matrix.mul_apply, Fin.sum_univ_two,
        Matrix.transpose_apply, Matrix.diagonal, Matrix.one_apply,
        Matrix.of_apply, Matrix.cons_val_zero, Matrix.cons_val_one,
        Matrix.head_cons, Fin.isValue]
      norm_num [fin6_val3, fin6_val4, fin6_val5]

theorem pinv_svd_J2_damped :
    pinv_svd fac2 "damped" (1/10000) (3/100) (1/100) = Except.ok Pd2 := by
  rw [pinv_svd_damped_eq]
  congr 1
  ext i j
  fin_cases i <;> fin_cases j <;>
    · simp only [fac2, U2, Pd2, dampedSinv, Matrix.mul_apply, Fin.sum_univ_two,
        Matrix.transpose_apply, Matrix.diagonal, Matrix.one_apply,
        Matrix.of_apply, Matrix.cons_val_zero, Matrix.cons_val_one,
        Matrix.head_cons, Fin.isValue]
      norm_num [fin6_val3, fin6_val4, fin6_val5]

/-- C2 (code bug): on the 6×2 Jacobian `J2` with singular values 1 and
1/200 and the error vector `e2`, `Controller.solve` — which calls
`numpy.linalg.pinv(J, 0.01)` with its fixed cutoff — returns (0, 0),
because 1/200 falls under the fixed relative cutoff 0.01·1; `pinv_svd`
under every one of the four configured policies (source defaults ε = 1e-4,
λ = 0.03, λ_min = 0.01) applied to the same error returns a nonzero joint
delta.  `solve` does special-case the constant 0.01 and does not agree
with the configured policy. -/
theorem solve_fixed_rcond_diverges :
    fac2.IsSVDOf J2 ∧
    solve svd2 J2 e2 = ![0, 0] ∧
    pinv_svd fac2 "plain" (1/10000) (3/100) (1/100) = Except.ok Pmp2 ∧
    pinv_svd fac2 "clipped" (1/10000) (3/100) (1/100) = Except.ok Pmp2 ∧
    pinv_svd fac2 "smooth" (1/10000) (3/100) (1/100) = Except.ok Pmp2 ∧
    pinv_svd fac2 "damped" (1/10000) (3/100) (1/100) = Except.ok Pd2 ∧
    Matrix.mulVec Pmp2 e2 = ![0, 200] ∧
    Matrix.mulVec Pd2 e2 = ![0, 200/37] ∧
    Matrix.mulVec Pmp2 e2 ≠ solve svd2 J2 e2 ∧
    Matrix.mulVec Pd2 e2 ≠ solve svd2 J2 e2 := by
  have hmp : Matrix.mulVec Pmp2 e2 = ![0, 200] := by
    funext i
    fin_cases i <;>
      · simp only [Matrix.mulVec, Matrix.dotProduct, Fin.sum_univ_six, Pmp2, e2,
          Matrix.cons_val_zero, Matrix.cons_val_one, Matrix.head_cons,
          Fin.isValue]
        norm_num [fin6_val3, fin6_val4, fin6_val5]
  have hd : Matrix.mulVec Pd2 e2 = ![0, 200/37] := by
    funext i
    fin_cases i <;>
      · simp only [Matrix.mulVec, Matrix.dotProduct, Fin.sum_univ_six, Pd2, e2,
          Matrix.cons_val_zero, Matrix.cons_val_one, Matrix.head_cons,
          Fin.isValue]
        norm_num [fin6_val3, fin6_val4, fin6_val5]
  refine ⟨fac2_is_svd, solve_J2_eval, pinv_svd_J2_plain, pinv_svd_J2_clipped,
    pinv_svd_J2_smooth, pinv_svd_J2_damped, hmp, hd, ?_, ?_⟩
  · rw [hmp, solve_J2_eval]
    intro h
    have h1 : (200 : ℚ) = 0 := by
      have := congrFun h 1
      simpa using this
    norm_num at h1
  · rw [hd, solve_J2_eval]
    intro h
    have h1 : (200/37 : ℚ) = 0 := by
      have := congrFun h 1
      simpa using this
    norm_num at h1

/-- The rank-1 matrix [[1, 0], [0, 0]] of the spec's singular scenario. -/
def J8 : Matrix (Fin 2) (Fin 2) ℚ := Matrix.of ![![1, 0], ![0, 0]]

/-- The (thin) SVD factors of `J8`: U = I, S = (1, 0), Vt = I. -/
def fac8 : SVD ℚ 2 2 2 := ⟨1, ![1, 0], 1⟩

/-- The Damped (λ = 0.03) generalized inverse of `J8`:
diag(1/(1 + 0.03²), 0) = diag(10000/10009, 0). -/
def D8 : Matrix (Fin 2) (Fin 2) ℚ := Matrix.of ![![10000/10009, 0], ![0, 0]]

/-- The Plain generalized inverse of `J8`: diag(1, 0). -/
def P8 : Matrix (Fin 2) (Fin 2) ℚ := Matrix.of ![![1, 0], ![0, 0]]

theorem fac8_is_svd : fac8.IsSVDOf J8 := by
  refine ⟨?_, ?_, ?_, ?_, ?_⟩
  · ext i j
    fin_cases i <;> fin_cases j <;>
      norm_num [fac8, J8, Matrix.mul_apply, Fin.sum_univ_two, Matrix.diagonal,
        Matrix.one_apply]
  · intro i
    fin_cases i <;> norm_num [fac8]
  · intro i j hij
    fin_cases i <;> fin_cases j
    · norm_num [fac8]
    · norm_num [fac8]
    · exact absurd hij (by decide)
    · norm_num [fac8]
  · ext i j
    fin_cases i <;> fin_cases j <;>
      norm_num [fac8, Matrix.mul_apply, Fin.sum_univ_two, Matrix.one_apply]
  · ext i j
    fin_cases i <;> fin_cases j <;>
      norm_num [fac8, Matrix.mul_apply, Fin.sum_univ_two, Matrix.one_apply]

/-- C8: on the rank-1 matrix J = [[1,0],[0,0]], the Damped policy with
λ = 0.03 yields a generalized inverse every entry of which has magnitude
at most 1/λ; the Plain policy maps the zero singular value to 0, so for
every error vector the result of applying the Plain inverse is (e 0, 0):
the second (null-direction) component of the error contributes nothing. -/
theorem pinv_svd_rank1_bounds :
    fac8.IsSVDOf J8 ∧
    pinv_svd fac8 "damped" (1/10000) (3/100) (1/100) = Except.ok D8 ∧
    (∀ i j, |D8 i j| ≤ 1 / (3/100)) ∧
    pinv_svd fac8 "plain" (1/10000) (3/100) (1/100) = Except.ok P8 ∧
    (∀ e : Fin 2 → ℚ, Matrix.mulVec P8 e = ![e 0, 0]) := by
  refine ⟨fac8_is_svd, ?_, ?_, ?_, ?_⟩
  · rw [pinv_svd_damped_eq]
    congr 1
    ext i j
    fin_cases i <;> fin_cases j <;>
      norm_num [fac8, D8, dampedSinv, Matrix.mul_apply, Fin.sum_univ_two,
        Matrix.diagonal, Matrix.one_apply]
  · intro i j
    fin_cases i <;> fin_cases j <;>
      · rw [show |D8 _ _| = D8 _ _ from abs_of_nonneg (by norm_num [D8])]
        norm_num [D8]
  · rw [pinv_svd_plain_eq]
    congr 1
    ext i j
    fin_cases i <;> fin_cases j <;>
      norm_num [fac8, P8, Matrix.mul_apply, Fin.sum_univ_two,
        Matrix.diagonal, Matrix.one_apply]
  · intro e
    funext i
    fin_cases i <;>
      simp [P8, Matrix.mulVec, Matrix.dotProduct, Fin.sum_univ_two]

end Lecture
